import Mathlib

/-!
# Verification of the Gmail workflow engine (src/src/google_cloud.py)

A shallow embedding of the conversation workflow engine of
`GmailWorkflowSystem`: the workflow state store (Supabase `workflows`
table), the in-memory deduplication set, the inline message classification
of `process_incoming_message`, the state machine `workflow_manager`, the
checkpoint stubs `get_last_history_id` / `save_last_history_id`, and the
reconciliation target selection of `pubsub_listener`.

Python strings become `String`, the Supabase table becomes a
`List WorkflowRecord` (the query `select * where thread_id = tid` is
`dbQuery`, and `upsert` on conflict key `thread_id` is
`save_workflow_state`), the `processed_messages` set becomes a
`List String`, and a fallible database call becomes an
`Except String (List WorkflowRecord)`.  The Gmail transport send inside
`send_reply_email` is modelled by a `SendOutcome` oracle: `sent` (one
reply delivered in the thread, normal return), `noExternal`
(`send_reply_email` found no external message in the thread and returned
without sending), `raised` (the transport raised; `send_reply_email`
re-raises, and the `except` in `workflow_manager` catches it so that no
statement after the send runs).
-/

/-- Python `needle in hay` substring membership on explicit character
lists. -/
def listContainsSub (hay needle : List Char) : Bool :=
  (List.range (hay.length + 1)).any (fun i => needle.isPrefixOf (hay.drop i))

/-- Python `needle in hay` on strings. -/
def strContains (hay needle : String) : Bool :=
  listContainsSub hay.data needle.data

/-- Python `s.lower()` (character-wise lowering, as `str.lower` does for
the ASCII addresses involved). -/
def lowerStr (s : String) : String :=
  ⟨s.data.map Char.toLower⟩

/-- One row of the Supabase `workflows` table (the fields the engine
reads and writes: `thread_id`, `step`, `status`). -/
structure WorkflowRecord where
  thread_id : String
  step : Nat
  status : String
deriving DecidableEq, Repr

/-- An inbound Gmail message as seen by `process_incoming_message`:
its `id`, `threadId`, and the `From` / `To` headers. -/
structure EmailMessage where
  id : String
  threadId : String
  fromHeader : String
  toHeader : String
deriving DecidableEq, Repr

/-- A reply sent by `send_reply_email`: the engine sends it with
`threadId` set to the workflow's thread. -/
structure SentReply where
  threadId : String
  body : String
deriving DecidableEq, Repr

/-- Outcome of the `send_reply_email` call made by `workflow_manager`. -/
inductive SendOutcome where
  | sent
  | noExternal
  | raised
deriving DecidableEq, Repr

/-- `self.client.table('workflows').select('*').eq('thread_id', tid)`:
the rows of the store whose `thread_id` matches. -/
def dbQuery (workflows : List WorkflowRecord) (tid : String) : List WorkflowRecord :=
  workflows.filter (fun w => w.thread_id == tid)

/-- `load_workflow_state` (google_cloud.py:565): on a storage exception
return `None`; on an empty result return `None`; otherwise return the
first row. -/
def load_workflow_state (result : Except String (List WorkflowRecord)) :
    Option WorkflowRecord :=
  match result with
  | .error _ => none
  | .ok [] => none
  | .ok (w :: _) => some w

/-- `save_workflow_state` (google_cloud.py:542): upsert keyed on
`thread_id` — overwrite every row with this `thread_id`, or append a new
row if none exists. -/
def save_workflow_state (workflows : List WorkflowRecord) (tid : String)
    (step : Nat) (status : String) : List WorkflowRecord :=
  if workflows.any (fun w => w.thread_id == tid) then
    workflows.map (fun w => if w.thread_id == tid then ⟨tid, step, status⟩ else w)
  else
    workflows ++ [⟨tid, step, status⟩]

/-- `send_initial_email` (google_cloud.py:50): after the opening send the
engine commits `step = 0, status = 'sent_initial'` for the new thread. -/
def send_initial_email (workflows : List WorkflowRecord) (tid : String) :
    List WorkflowRecord :=
  save_workflow_state workflows tid 0 "sent_initial"

/-- The persisted record a truthful point lookup returns for a thread. -/
def getWorkflow (workflows : List WorkflowRecord) (tid : String) :
    Option WorkflowRecord :=
  load_workflow_state (.ok (dbQuery workflows tid))

/-- `workflow_manager` (google_cloud.py:407).  It re-reads the persisted
state (`reread` is the result of that second database call), aborts on a
missing record or a step mismatch, sends a follow-up and then commits for
steps 0..2, commits `completed` for step 3, and is a no-op otherwise.  A
`raised` send is caught by the surrounding `except`, so the commit after
it never runs. Returns the new store contents and the replies sent. -/
def workflow_manager (workflows : List WorkflowRecord) (thread_id : String)
    (step : Nat) (reread : Except String (List WorkflowRecord))
    (send : SendOutcome) : List WorkflowRecord × List SentReply :=
  match load_workflow_state reread with
  | none => (workflows, [])
  | some current =>
    if current.step ≠ step then (workflows, [])
    else if step = 0 then
      match send with
      | .raised => (workflows, [])
      | .noExternal => (save_workflow_state workflows thread_id 1 "sent_followup_1", [])
      | .sent => (save_workflow_state workflows thread_id 1 "sent_followup_1",
                  [⟨thread_id, "Testing testing - Follow-up #1"⟩])
    else if step = 1 then
      match send with
      | .raised => (workflows, [])
      | .noExternal => (save_workflow_state workflows thread_id 2 "sent_followup_2", [])
      | .sent => (save_workflow_state workflows thread_id 2 "sent_followup_2",
                  [⟨thread_id, "Testing testing - Follow-up #2"⟩])
    else if step = 2 then
      match send with
      | .raised => (workflows, [])
      | .noExternal => (save_workflow_state workflows thread_id 3 "sent_followup_3", [])
      | .sent => (save_workflow_state workflows thread_id 3 "sent_followup_3",
                  [⟨thread_id, "Testing testing - Follow-up #3"⟩])
    else if step = 3 then
      (save_workflow_state workflows thread_id 4 "completed", [])
    else (workflows, [])

/-- The four classes of the inline filter chain of
`process_incoming_message` (google_cloud.py:289..326). -/
inductive Classification where
  | SelfEcho
  | Automated
  | MisRouted
  | Genuine
deriving DecidableEq, Repr

/-- The inline filter chain of `process_incoming_message`, in source
order: `my_email and my_email in from_header.lower()` → self echo;
`'noreply' in from_header.lower() or 'no-reply' in from_header.lower()` →
automated; `my_email and my_email not in to_header.lower()` → mis-routed;
otherwise genuine.  `my_email` is the resolved own address, already
lower-cased as in the source (`os.getenv("GMAIL_ADDRESS", "").lower()`). -/
def classify (fromHeader toHeader my_email : String) : Classification :=
  if !my_email.isEmpty && strContains (lowerStr fromHeader) my_email then .SelfEcho
  else if strContains (lowerStr fromHeader) "noreply" ||
          strContains (lowerStr fromHeader) "no-reply" then .Automated
  else if !my_email.isEmpty && !strContains (lowerStr toHeader) my_email then .MisRouted
  else .Genuine

/-- The composite marker `f"{thread_id}_step_{current_step}"` of
google_cloud.py:358. -/
def stepKey (thread_id : String) (step : Nat) : String :=
  thread_id ++ "_step_" ++ toString step

/-- The mutable state of the running process: the in-memory
`processed_messages` set, the Supabase `workflows` table, and (for
specification purposes) the log of replies sent so far. -/
structure SysState where
  processed : List String
  workflows : List WorkflowRecord
  sent : List SentReply
deriving DecidableEq, Repr

/-- `process_incoming_message` (google_cloud.py:258), in source order:
(1) a message id already in `processed_messages` returns with no change;
(2) a self-echo / noreply / mis-routed message is marked processed and
dropped; (3) the workflow lookup (`lookupResult` is that database call's
result) missing marks processed and drops; (4) `step >= 4 or status ==
'completed'` marks processed and drops; (5) a `(thread, step)` marker
already in `processed_messages` returns with no change; otherwise (6) the
message id and the step marker are added *before* `workflow_manager` is
called (`rereadResult` is the state machine's own re-read). -/
def process_incoming_message (st : SysState) (msg : EmailMessage)
    (my_email : String) (lookupResult : Except String (List WorkflowRecord))
    (rereadResult : Except String (List WorkflowRecord))
    (send : SendOutcome) : SysState :=
  if st.processed.contains msg.id then st
  else
    match classify msg.fromHeader msg.toHeader my_email with
    | .SelfEcho => { st with processed := msg.id :: st.processed }
    | .Automated => { st with processed := msg.id :: st.processed }
    | .MisRouted => { st with processed := msg.id :: st.processed }
    | .Genuine =>
      match load_workflow_state lookupResult with
      | none => { st with processed := msg.id :: st.processed }
      | some w =>
        if 4 ≤ w.step ∨ w.status = "completed" then
          { st with processed := msg.id :: st.processed }
        else if st.processed.contains (stepKey msg.threadId w.step) then st
        else
          { processed := stepKey msg.threadId w.step :: msg.id :: st.processed,
            workflows := (workflow_manager st.workflows msg.threadId w.step
              rereadResult send).1,
            sent := st.sent ++ (workflow_manager st.workflows msg.threadId w.step
              rereadResult send).2 }

/-- One notification-driven delivery of an inbound message to
`process_incoming_message`: the message itself, whether each of the two
database reads succeeds, and the outcome of the transport send. -/
structure Event where
  msg : EmailMessage
  dbOk : Bool
  wmDbOk : Bool
  send : SendOutcome
deriving DecidableEq, Repr

/-- The result a database read delivers: the true query result when the
call succeeds, a raised storage error otherwise. -/
def eventDb (ok : Bool) (workflows : List WorkflowRecord) (tid : String) :
    Except String (List WorkflowRecord) :=
  if ok then .ok (dbQuery workflows tid) else .error "storage error"

/-- One serialized step of the running system: the deliveries the
orchestrator makes are processed one at a time, each database read
hitting the current store contents. -/
def step_system (my_email : String) (st : SysState) (ev : Event) : SysState :=
  process_incoming_message st ev.msg my_email
    (eventDb ev.dbOk st.workflows ev.msg.threadId)
    (eventDb ev.wmDbOk st.workflows ev.msg.threadId)
    ev.send

/-- A run of the system over a sequence of deliveries. -/
def run_system (my_email : String) (st : SysState) (evs : List Event) : SysState :=
  evs.foldl (step_system my_email) st

/-- `get_last_history_id` (google_cloud.py:240): the body is
`return None` — the stored checkpoint is never consulted. -/
def get_last_history_id (_store : Option Int) : Option Int :=
  none

/-- `save_last_history_id` (google_cloud.py:249): the body only prints —
the stored checkpoint is never written. -/
def save_last_history_id (store : Option Int) (_history_id : Int) : Option Int :=
  store

/-- The start marker computation of google_cloud.py:110:
`stored_history_id if stored_history_id else str(max(1, int(history_id) - 100))`. -/
def start_history_id (stored : Option Int) (history_id : Int) : Int :=
  match stored with
  | some s => s
  | none => max 1 (history_id - 100)

/-- A message summary returned by the recent-messages listing, with its
`internalDate` arrival timestamp in milliseconds. -/
structure RecentMessage where
  id : String
  internalDate : Int
deriving DecidableEq, Repr

/-- One entry of the history response: the ids listed under
`messagesAdded` (empty when the key is absent). -/
structure HistoryItem where
  messagesAdded : List String
deriving DecidableEq, Repr

/-- The message-selection logic of `pubsub_listener`
(google_cloud.py:117..233).  `hist` is the incremental history request:
`.error` when the API call raised (the code then returns at line 131 —
no fallback), `.ok none` when the response has no `history` key (the
code then lists recent messages, checks the first five, and processes
those younger than five minutes), `.ok (some items)` when history
entries exist (the code processes every `messagesAdded` id).  Returns
the ids handed to `process_incoming_message`, in order. -/
def pubsub_listener_targets (hist : Except String (Option (List HistoryItem)))
    (recent : List RecentMessage) (now : Int) : List String :=
  match hist with
  | .error _ => []
  | .ok none =>
    ((recent.take 5).filter (fun m => now - m.internalDate < 5 * 60 * 1000)).map
      RecentMessage.id
  | .ok (some items) =>
    items.foldl (fun acc it => acc ++ it.messagesAdded) []

/-- The step value a truthful lookup reports for a thread. -/
def stepOf (workflows : List WorkflowRecord) (tid : String) : Option Nat :=
  (getWorkflow workflows tid).map WorkflowRecord.step

/-- A conversation stalled at record `w`: the store still holds `w` for
`tid`, and the composite `(thread, step)` marker is already in the
processed set, so the step-`w.step` transition can never be triggered
again in this process. -/
def StalledAt (st : SysState) (tid : String) (w : WorkflowRecord) : Prop :=
  getWorkflow st.workflows tid = some w ∧
  st.processed.contains (stepKey tid w.step) = true

/-- A genuine external reply delivered in thread `t1` with both database
reads succeeding and the transport send succeeding. -/
def genuineReply (mid : String) : Event :=
  { msg := { id := mid, threadId := "t1", fromHeader := "alice@example.com",
             toHeader := "me@example.com" },
    dbOk := true, wmDbOk := true, send := .sent }

/-- The state right after the opening message of a fresh conversation in
thread `t1` (step 0, `sent_initial`). -/
def scenarioStart : SysState :=
  { processed := [], workflows := send_initial_email [] "t1", sent := [] }

/-- Four genuine replies delivered in sequence to the tracked thread. -/
def scenarioEvents : List Event :=
  [genuineReply "m1", genuineReply "m2", genuineReply "m3", genuineReply "m4"]

theorem find_cons_pos {α : Type} (p : α → Bool) (a : α) (l : List α) (h : p a = true) :
    List.find? p (a :: l) = some a := by
  simp [List.find?_cons, h]

theorem find_cons_neg {α : Type} (p : α → Bool) (a : α) (l : List α) (h : p a = false) :
    List.find? p (a :: l) = List.find? p l := by
  simp [List.find?_cons, h]

theorem load_ok_head (l : List WorkflowRecord) :
    load_workflow_state (Except.ok l) = l.head? := by
  cases l <;> rfl

theorem getWorkflow_eq_find (ws : List WorkflowRecord) (tid : String) :
    getWorkflow ws tid = ws.find? (fun w => w.thread_id == tid) := by
  induction ws with
  | nil => rfl
  | cons w ws ih =>
    simp only [getWorkflow, dbQuery, List.filter_cons] at ih ⊢
    by_cases h : (w.thread_id == tid) = true
    · simp [h, load_ok_head]
    · simp only [Bool.not_eq_true] at h
      simp [h, load_ok_head, ih, List.find?_cons]

theorem find_map_upsert (ws : List WorkflowRecord) (tid : String) (s : Nat)
    (status : String) (h : ws.any (fun w => w.thread_id == tid) = true) :
    (ws.map (fun w => if w.thread_id == tid then (⟨tid, s, status⟩ : WorkflowRecord) else w)).find?
      (fun w => w.thread_id == tid) = some ⟨tid, s, status⟩ := by
  induction ws with
  | nil => simp at h
  | cons w ws ih =>
    rw [List.map_cons]
    by_cases hw : (w.thread_id == tid) = true
    · rw [if_pos hw]
      exact find_cons_pos _ _ _ (by simp)
    · have h' : ws.any (fun w => w.thread_id == tid) = true := by
        simp only [List.any_cons, Bool.or_eq_true] at h
        exact h.resolve_left hw
      have hw' : (w.thread_id == tid) = false := by
        simp only [Bool.not_eq_true] at hw
        exact hw
      rw [if_neg hw, find_cons_neg (fun (w : WorkflowRecord) => w.thread_id == tid) w _ hw']
      exact ih h'

theorem find_none_of_any_false (ws : List WorkflowRecord) (tid : String)
    (h : ws.any (fun w => w.thread_id == tid) = false) :
    ws.find? (fun w => w.thread_id == tid) = none := by
  induction ws with
  | nil => rfl
  | cons w ws ih =>
    simp only [List.any_cons, Bool.or_eq_false_iff] at h
    rw [find_cons_neg (fun (w : WorkflowRecord) => w.thread_id == tid) w _ h.1, ih h.2]

theorem getWorkflow_save_self (ws : List WorkflowRecord) (tid : String) (s : Nat)
    (status : String) :
    getWorkflow (save_workflow_state ws tid s status) tid = some ⟨tid, s, status⟩ := by
  rw [getWorkflow_eq_find]
  unfold save_workflow_state
  by_cases hany : ws.any (fun w => w.thread_id == tid) = true
  · rw [if_pos hany]
    exact find_map_upsert ws tid s status hany
  · simp only [Bool.not_eq_true] at hany
    rw [if_neg (by simp [hany]), List.find?_append, find_none_of_any_false ws tid hany]
    simp [List.find?_cons]

theorem getWorkflow_save_other (ws : List WorkflowRecord) (tid tid' : String)
    (s : Nat) (status : String) (h : tid' ≠ tid) :
    getWorkflow (save_workflow_state ws tid s status) tid' = getWorkflow ws tid' := by
  have hne : (tid == tid') = false := by
    rw [beq_eq_false_iff_ne]
    exact fun he => h he.symm
  rw [getWorkflow_eq_find, getWorkflow_eq_find]
  unfold save_workflow_state
  by_cases hany : ws.any (fun w => w.thread_id == tid) = true
  · rw [if_pos hany]
    clear hany
    induction ws with
    | nil => rfl
    | cons w ws ih =>
      rw [List.map_cons]
      by_cases hw : (w.thread_id == tid) = true
      · have hwt : w.thread_id = tid := eq_of_beq hw
        have hw' : (w.thread_id == tid') = false := by rw [hwt]; exact hne
        rw [if_pos hw,
            find_cons_neg (fun (w : WorkflowRecord) => w.thread_id == tid') ⟨tid, s, status⟩ _ (by exact hne),
            find_cons_neg (fun (w : WorkflowRecord) => w.thread_id == tid') w _ hw', ih]
      · by_cases hw2 : (w.thread_id == tid') = true
        · rw [if_neg hw, find_cons_pos (fun (w : WorkflowRecord) => w.thread_id == tid') w _ hw2,
              find_cons_pos (fun (w : WorkflowRecord) => w.thread_id == tid') w _ hw2]
        · have hw2' : (w.thread_id == tid') = false := by
            simp only [Bool.not_eq_true] at hw2
            exact hw2
          rw [if_neg hw, find_cons_neg (fun (w : WorkflowRecord) => w.thread_id == tid') w _ hw2',
              find_cons_neg (fun (w : WorkflowRecord) => w.thread_id == tid') w _ hw2', ih]
  · simp only [Bool.not_eq_true] at hany
    rw [if_neg (by simp [hany]), List.find?_append]
    cases hf : ws.find? (fun w => w.thread_id == tid') with
    | some w => rfl
    | none => simp [List.find?_cons, hne]

theorem wm_cases (ws : List WorkflowRecord) (tid : String) (step : Nat)
    (reread : Except String (List WorkflowRecord)) (send : SendOutcome) :
    workflow_manager ws tid step reread send = (ws, []) ∨
    (step < 4 ∧
      (∃ status, (workflow_manager ws tid step reread send).1 =
        save_workflow_state ws tid (step + 1) status) ∧
      (∀ r ∈ (workflow_manager ws tid step reread send).2, r.threadId = tid)) := by
  unfold workflow_manager
  cases hl : load_workflow_state reread with
  | none => exact Or.inl rfl
  | some current =>
    dsimp only
    by_cases hstep : current.step ≠ step
    · rw [if_pos hstep]
      exact Or.inl rfl
    · rw [if_neg hstep]
      by_cases h0 : step = 0
      · rw [if_pos h0]
        cases send with
        | raised => exact Or.inl rfl
        | noExternal =>
          refine Or.inr ⟨by omega, ⟨"sent_followup_1", by rw [h0]⟩, by simp⟩
        | sent =>
          refine Or.inr ⟨by omega, ⟨"sent_followup_1", by rw [h0]⟩, by simp⟩
      · rw [if_neg h0]
        by_cases h1 : step = 1
        · rw [if_pos h1]
          cases send with
          | raised => exact Or.inl rfl
          | noExternal =>
            refine Or.inr ⟨by omega, ⟨"sent_followup_2", by rw [h1]⟩, by simp⟩
          | sent =>
            refine Or.inr ⟨by omega, ⟨"sent_followup_2", by rw [h1]⟩, by simp⟩
        · rw [if_neg h1]
          by_cases h2 : step = 2
          · rw [if_pos h2]
            cases send with
            | raised => exact Or.inl rfl
            | noExternal =>
              refine Or.inr ⟨by omega, ⟨"sent_followup_3", by rw [h2]⟩, by simp⟩
            | sent =>
              refine Or.inr ⟨by omega, ⟨"sent_followup_3", by rw [h2]⟩, by simp⟩
          · rw [if_neg h2]
            by_cases h3 : step = 3
            · rw [if_pos h3]
              refine Or.inr ⟨by omega, ⟨"completed", by rw [h3]⟩, by simp⟩
            · rw [if_neg h3]
              exact Or.inl rfl

theorem process_shape (st : SysState) (msg : EmailMessage) (my : String)
    (lookup reread : Except String (List WorkflowRecord)) (send : SendOutcome) :
    process_incoming_message st msg my lookup reread send = st ∨
    process_incoming_message st msg my lookup reread send =
      { st with processed := msg.id :: st.processed } ∨
    ∃ w, load_workflow_state lookup = some w ∧
      ¬(4 ≤ w.step ∨ w.status = "completed") ∧
      st.processed.contains (stepKey msg.threadId w.step) = false ∧
      st.processed.contains msg.id = false ∧
      classify msg.fromHeader msg.toHeader my = Classification.Genuine ∧
      process_incoming_message st msg my lookup reread send =
        { processed := stepKey msg.threadId w.step :: msg.id :: st.processed,
          workflows := (workflow_manager st.workflows msg.threadId w.step reread send).1,
          sent := st.sent ++ (workflow_manager st.workflows msg.threadId w.step reread send).2 } := by
  unfold process_incoming_message
  by_cases h1 : st.processed.contains msg.id = true
  · rw [if_pos h1]
    exact Or.inl rfl
  · have h1' : st.processed.contains msg.id = false := by
      simp only [Bool.not_eq_true] at h1
      exact h1
    rw [if_neg h1]
    cases hc : classify msg.fromHeader msg.toHeader my with
    | SelfEcho => exact Or.inr (Or.inl rfl)
    | Automated => exact Or.inr (Or.inl rfl)
    | MisRouted => exact Or.inr (Or.inl rfl)
    | Genuine =>
      cases hl : load_workflow_state lookup with
      | none => exact Or.inr (Or.inl rfl)
      | some w =>
        dsimp only
        by_cases h4 : 4 ≤ w.step ∨ w.status = "completed"
        · rw [if_pos h4]
          exact Or.inr (Or.inl rfl)
        · rw [if_neg h4]
          by_cases hk : st.processed.contains (stepKey msg.threadId w.step) = true
          · rw [if_pos hk]
            exact Or.inl rfl
          · have hk' : st.processed.contains (stepKey msg.threadId w.step) = false := by
              simp only [Bool.not_eq_true] at hk
              exact hk
            rw [if_neg hk]
            exact Or.inr (Or.inr ⟨w, rfl, h4, hk', h1', rfl, rfl⟩)

theorem contains_cons_of_contains (l : List String) (a x : String)
    (h : l.contains x = true) : (a :: l).contains x = true := by
  rw [List.contains_cons, h, Bool.or_true]

theorem step_system_processed_mono (my : String) (st : SysState) (ev : Event)
    (x : String) (h : st.processed.contains x = true) :
    (step_system my st ev).processed.contains x = true := by
  unfold step_system
  rcases process_shape st ev.msg my (eventDb ev.dbOk st.workflows ev.msg.threadId)
      (eventDb ev.wmDbOk st.workflows ev.msg.threadId) ev.send with
    hs | hs | ⟨w, _, _, _, _, _, hs⟩ <;> rw [hs]
  · exact h
  · exact contains_cons_of_contains _ _ _ h
  · exact contains_cons_of_contains _ _ _ (contains_cons_of_contains _ _ _ h)

theorem step_system_sent_origin (my : String) (st : SysState) (ev : Event)
    (r : SentReply) (h : r ∈ (step_system my st ev).sent) :
    r ∈ st.sent ∨ r.threadId = ev.msg.threadId := by
  unfold step_system at h
  rcases process_shape st ev.msg my (eventDb ev.dbOk st.workflows ev.msg.threadId)
      (eventDb ev.wmDbOk st.workflows ev.msg.threadId) ev.send with
    hs | hs | ⟨w, _, _, _, _, _, hs⟩ <;> rw [hs] at h
  · exact Or.inl h
  · exact Or.inl h
  · rcases List.mem_append.mp h with h' | h'
    · exact Or.inl h'
    · rcases wm_cases st.workflows ev.msg.threadId w.step
          (eventDb ev.wmDbOk st.workflows ev.msg.threadId) ev.send with hw | ⟨_, _, hall⟩
      · rw [hw] at h'
        simp at h'
      · exact Or.inr (hall r h')

theorem step_system_workflows_other (my : String) (st : SysState) (ev : Event)
    (tid : String) (h : ev.msg.threadId ≠ tid) :
    getWorkflow (step_system my st ev).workflows tid = getWorkflow st.workflows tid := by
  unfold step_system
  rcases process_shape st ev.msg my (eventDb ev.dbOk st.workflows ev.msg.threadId)
      (eventDb ev.wmDbOk st.workflows ev.msg.threadId) ev.send with
    hs | hs | ⟨w, _, _, _, _, _, hs⟩ <;> rw [hs]
  · rcases wm_cases st.workflows ev.msg.threadId w.step
        (eventDb ev.wmDbOk st.workflows ev.msg.threadId) ev.send with hw | ⟨_, ⟨status, h1⟩, _⟩
    · rw [hw]
    · rw [h1]
      exact getWorkflow_save_other _ _ _ _ _ (fun he => h he.symm)

theorem load_eventDb_true (ws : List WorkflowRecord) (tid : String) :
    load_workflow_state (eventDb true ws tid) = getWorkflow ws tid := by
  rfl

theorem load_eventDb_some (ok : Bool) (ws : List WorkflowRecord) (tid : String)
    (w : WorkflowRecord) (h : load_workflow_state (eventDb ok ws tid) = some w) :
    ok = true ∧ getWorkflow ws tid = some w := by
  cases ok with
  | false => simp [eventDb, load_workflow_state] at h
  | true => exact ⟨rfl, by rw [← load_eventDb_true]; exact h⟩

theorem step_system_frozen_of_terminal (my : String) (st : SysState) (ev : Event)
    (w : WorkflowRecord)
    (hw : getWorkflow st.workflows ev.msg.threadId = some w)
    (hterm : 4 ≤ w.step ∨ w.status = "completed") :
    (step_system my st ev).workflows = st.workflows ∧
    (step_system my st ev).sent = st.sent := by
  unfold step_system
  rcases process_shape st ev.msg my (eventDb ev.dbOk st.workflows ev.msg.threadId)
      (eventDb ev.wmDbOk st.workflows ev.msg.threadId) ev.send with
    hs | hs | ⟨w0, hl, h4, _, _, _, hs⟩ <;> rw [hs]
  · exact ⟨rfl, rfl⟩
  · exact ⟨rfl, rfl⟩
  · exfalso
    obtain ⟨_, hw0⟩ := load_eventDb_some _ _ _ _ hl
    rw [hw] at hw0
    cases hw0
    exact h4 hterm

theorem step_system_frozen_of_key (my : String) (st : SysState) (ev : Event)
    (w : WorkflowRecord)
    (hw : getWorkflow st.workflows ev.msg.threadId = some w)
    (hkey : st.processed.contains (stepKey ev.msg.threadId w.step) = true) :
    (step_system my st ev).workflows = st.workflows ∧
    (step_system my st ev).sent = st.sent := by
  unfold step_system
  rcases process_shape st ev.msg my (eventDb ev.dbOk st.workflows ev.msg.threadId)
      (eventDb ev.wmDbOk st.workflows ev.msg.threadId) ev.send with
    hs | hs | ⟨w0, hl, _, hk, _, _, hs⟩ <;> rw [hs]
  · exact ⟨rfl, rfl⟩
  · exact ⟨rfl, rfl⟩
  · exfalso
    obtain ⟨_, hw0⟩ := load_eventDb_some _ _ _ _ hl
    rw [hw] at hw0
    cases hw0
    rw [hkey] at hk
    exact Bool.true_eq_false.mp hk

theorem step_system_step_mono (my : String) (st : SysState) (ev : Event) (tid : String) :
    stepOf (step_system my st ev).workflows tid = stepOf st.workflows tid ∨
    ∃ s, stepOf st.workflows tid = some s ∧
      stepOf (step_system my st ev).workflows tid = some (s + 1) := by
  by_cases ht : ev.msg.threadId = tid
  · unfold step_system
    rcases process_shape st ev.msg my (eventDb ev.dbOk st.workflows ev.msg.threadId)
        (eventDb ev.wmDbOk st.workflows ev.msg.threadId) ev.send with
      hs | hs | ⟨w, hl, _, _, _, _, hs⟩ <;> rw [hs]
    · left; rfl
    · left; rfl
    · rcases wm_cases st.workflows ev.msg.threadId w.step
          (eventDb ev.wmDbOk st.workflows ev.msg.threadId) ev.send with hw | ⟨_, ⟨status, h1⟩, _⟩
      · rw [hw]
        left; rfl
      · rw [h1]
        obtain ⟨_, hw0⟩ := load_eventDb_some _ _ _ _ hl
        subst ht
        right
        refine ⟨w.step, ?_, ?_⟩
        · rw [stepOf, hw0]
          rfl
        · rw [stepOf, getWorkflow_save_self]
          rfl
  · left
    rw [stepOf, stepOf, step_system_workflows_other my st ev tid ht]

theorem stalled_step (my : String) (st : SysState) (ev : Event) (tid : String)
    (w : WorkflowRecord) (h : StalledAt st tid w) :
    StalledAt (step_system my st ev) tid w ∧
    ∀ r ∈ (step_system my st ev).sent, r ∈ st.sent ∨ r.threadId ≠ tid := by
  obtain ⟨hw, hkey⟩ := h
  by_cases ht : ev.msg.threadId = tid
  · obtain ⟨hwf, hsent⟩ := step_system_frozen_of_key my st ev w (ht ▸ hw) (ht ▸ hkey)
    refine ⟨⟨by rw [hwf]; exact hw, step_system_processed_mono _ _ _ _ hkey⟩, ?_⟩
    intro r hr
    rw [hsent] at hr
    exact Or.inl hr
  · refine ⟨⟨by rw [step_system_workflows_other my st ev tid ht]; exact hw,
      step_system_processed_mono _ _ _ _ hkey⟩, ?_⟩
    intro r hr
    rcases step_system_sent_origin my st ev r hr with h' | h'
    · exact Or.inl h'
    · exact Or.inr (by rw [h']; exact ht)

theorem stalled_run (my : String) (evs : List Event) (st : SysState) (tid : String)
    (w : WorkflowRecord) (h : StalledAt st tid w) :
    StalledAt (run_system my st evs) tid w ∧
    ∀ r ∈ (run_system my st evs).sent, r ∈ st.sent ∨ r.threadId ≠ tid := by
  induction evs generalizing st with
  | nil => exact ⟨h, fun r hr => Or.inl hr⟩
  | cons ev evs ih =>
    obtain ⟨h1, h2⟩ := stalled_step my st ev tid w h
    obtain ⟨h3, h4⟩ := ih (step_system my st ev) h1
    refine ⟨h3, fun r hr => ?_⟩
    rcases h4 r hr with h' | h'
    · exact h2 r h'
    · exact Or.inr h'

/-- Claim C2: if the re-read persisted record is absent or its step differs from
`expected_step`, `workflow_manager` is a no-op: the store is unchanged and
no message is sent. -/
theorem c2_advance_mismatch_noop (ws : List WorkflowRecord) (tid : String)
    (expected : Nat) (reread : Except String (List WorkflowRecord))
    (send : SendOutcome)
    (h : load_workflow_state reread = none ∨
         ∃ w, load_workflow_state reread = some w ∧ w.step ≠ expected) :
    workflow_manager ws tid expected reread send = (ws, []) := by
  unfold workflow_manager
  rcases h with h | ⟨w, hw, hstep⟩
  · rw [h]
  · rw [hw]
    dsimp only
    rw [if_pos hstep]

theorem c2_advance_mismatch_noop_witness :
    workflow_manager [⟨"t1", 2, "sent_followup_2"⟩] "t1" 0
      (Except.ok [⟨"t1", 2, "sent_followup_2"⟩]) SendOutcome.sent
      = ([⟨"t1", 2, "sent_followup_2"⟩], []) :=
  c2_advance_mismatch_noop _ _ _ _ _
    (Or.inr ⟨⟨"t1", 2, "sent_followup_2"⟩, rfl, by decide⟩)

/-- Claim C1: when the re-read record matches the expected step `s`: for
`s = 0, 1, 2` (that is `s < K - 1` with `K = 4`) a successful advance
sends exactly one reply in the same thread and then commits
`upsert(thread_id, step = s+1, status = "sent_followup_(s+1)")`; for
`s = 3` (`s = K - 1`) it commits `upsert(thread_id, step = 4,
status = "completed")` and sends nothing.  Over the full scenario run a
conversation yields exactly `K - 1 = 3` follow-up messages after the
opening message and ends at step 4, `completed`. -/
theorem c1_advance_step_semantics :
    (∀ (ws : List WorkflowRecord) (tid : String) (s : Nat)
        (reread : Except String (List WorkflowRecord)) (w : WorkflowRecord),
      load_workflow_state reread = some w → w.step = s →
      (s < 3 →
        workflow_manager ws tid s reread SendOutcome.sent =
          (save_workflow_state ws tid (s + 1)
            ("sent_followup_" ++ toString (s + 1)),
           [⟨tid, "Testing testing - Follow-up #" ++ toString (s + 1)⟩])) ∧
      (s = 3 → ∀ send : SendOutcome,
        workflow_manager ws tid s reread send =
          (save_workflow_state ws tid 4 "completed", []))) ∧
    ((run_system "me@example.com" scenarioStart scenarioEvents).workflows
        = [⟨"t1", 4, "completed"⟩] ∧
     (run_system "me@example.com" scenarioStart scenarioEvents).sent =
       [⟨"t1", "Testing testing - Follow-up #1"⟩,
        ⟨"t1", "Testing testing - Follow-up #2"⟩,
        ⟨"t1", "Testing testing - Follow-up #3"⟩] ∧
     (run_system "me@example.com" scenarioStart scenarioEvents).sent.length = 3) := by
  constructor
  · intro ws tid s reread w hload hstep
    constructor
    · intro hs
      unfold workflow_manager
      rw [hload]
      dsimp only
      rw [if_neg (by omega : ¬ w.step ≠ s)]
      have h3 : s = 0 ∨ s = 1 ∨ s = 2 := by omega
      rcases h3 with h | h | h <;> subst h
      · rfl
      · rfl
      · rfl
    · intro hs send
      subst hs
      unfold workflow_manager
      rw [hload]
      dsimp only
      rw [if_neg (by omega : ¬ w.step ≠ 3)]
      rfl
  · exact ⟨by decide, by decide, by decide⟩

theorem c1_advance_step_semantics_witness :
    workflow_manager [⟨"t1", 0, "sent_initial"⟩] "t1" 0
      (Except.ok [⟨"t1", 0, "sent_initial"⟩]) SendOutcome.sent
      = (save_workflow_state [⟨"t1", 0, "sent_initial"⟩] "t1" 1
           ("sent_followup_" ++ toString 1),
         [⟨"t1", "Testing testing - Follow-up #" ++ toString 1⟩]) :=
  (c1_advance_step_semantics.1 [⟨"t1", 0, "sent_initial"⟩] "t1" 0
    (Except.ok [⟨"t1", 0, "sent_initial"⟩]) ⟨"t1", 0, "sent_initial"⟩ rfl rfl).1
    (by decide)

/-- Claim C7: for a step transition that sends a message (steps 0, 1, 2), the
state-store commit happens only when the send returned without raising:
if the send raises, the store is left unchanged and nothing is committed;
if the send returns normally, the commit of step `s + 1` follows it. -/
theorem c7_commit_only_after_send (ws : List WorkflowRecord) (tid : String)
    (s : Nat) (reread : Except String (List WorkflowRecord))
    (send : SendOutcome) (w : WorkflowRecord)
    (hload : load_workflow_state reread = some w) (hstep : w.step = s)
    (hs : s < 3) :
    (send = SendOutcome.raised → workflow_manager ws tid s reread send = (ws, [])) ∧
    (send ≠ SendOutcome.raised →
      (workflow_manager ws tid s reread send).1 =
        save_workflow_state ws tid (s + 1) ("sent_followup_" ++ toString (s + 1))) := by
  constructor
  · intro hsend
    subst hsend
    unfold workflow_manager
    rw [hload]
    dsimp only
    rw [if_neg (by omega : ¬ w.step ≠ s)]
    have h3 : s = 0 ∨ s = 1 ∨ s = 2 := by omega
    rcases h3 with h | h | h <;> subst h <;> rfl
  · intro hsend
    unfold workflow_manager
    rw [hload]
    dsimp only
    rw [if_neg (by omega : ¬ w.step ≠ s)]
    have h3 : s = 0 ∨ s = 1 ∨ s = 2 := by omega
    rcases h3 with h | h | h <;> subst h <;> cases send <;>
      first
      | exact absurd rfl hsend
      | rfl

theorem c7_commit_only_after_send_witness :
    workflow_manager [⟨"t1", 1, "sent_followup_1"⟩] "t1" 1
      (Except.ok [⟨"t1", 1, "sent_followup_1"⟩]) SendOutcome.raised
      = ([⟨"t1", 1, "sent_followup_1"⟩], []) :=
  (c7_commit_only_after_send [⟨"t1", 1, "sent_followup_1"⟩] "t1" 1
    (Except.ok [⟨"t1", 1, "sent_followup_1"⟩]) SendOutcome.raised
    ⟨"t1", 1, "sent_followup_1"⟩ rfl rfl (by decide)).1 rfl

/-- Claim C5: for a non-empty resolved own address, classification applies the
rules in source order on the lower-cased address fields: own address in
the sender → SelfEcho; else "noreply" or "no-reply" in the sender →
Automated; else own address not in the recipient → MisRouted; else
Genuine.  A message that is not Genuine never reaches the state machine:
it leaves the workflow store and the sent log unchanged; in particular a
message whose sender contains the own address never triggers a
transition. -/
theorem c5_classification_gate :
    (∀ f t my : String, my.isEmpty = false →
      (strContains (lowerStr f) my = true → classify f t my = .SelfEcho) ∧
      (strContains (lowerStr f) my = false →
        (strContains (lowerStr f) "noreply" || strContains (lowerStr f) "no-reply") = true →
        classify f t my = .Automated) ∧
      (strContains (lowerStr f) my = false →
        strContains (lowerStr f) "noreply" = false →
        strContains (lowerStr f) "no-reply" = false →
        strContains (lowerStr t) my = false → classify f t my = .MisRouted) ∧
      (strContains (lowerStr f) my = false →
        strContains (lowerStr f) "noreply" = false →
        strContains (lowerStr f) "no-reply" = false →
        strContains (lowerStr t) my = true → classify f t my = .Genuine)) ∧
    (∀ (st : SysState) (msg : EmailMessage) (my : String)
        (lookup reread : Except String (List WorkflowRecord)) (send : SendOutcome),
      classify msg.fromHeader msg.toHeader my ≠ .Genuine →
      (process_incoming_message st msg my lookup reread send).workflows = st.workflows ∧
      (process_incoming_message st msg my lookup reread send).sent = st.sent) ∧
    (∀ (st : SysState) (msg : EmailMessage) (my : String)
        (lookup reread : Except String (List WorkflowRecord)) (send : SendOutcome),
      my.isEmpty = false →
      strContains (lowerStr msg.fromHeader) my = true →
      (process_incoming_message st msg my lookup reread send).workflows = st.workflows ∧
      (process_incoming_message st msg my lookup reread send).sent = st.sent) := by
  have hrules : ∀ f t my : String, my.isEmpty = false →
      (strContains (lowerStr f) my = true → classify f t my = .SelfEcho) ∧
      (strContains (lowerStr f) my = false →
        (strContains (lowerStr f) "noreply" || strContains (lowerStr f) "no-reply") = true →
        classify f t my = .Automated) ∧
      (strContains (lowerStr f) my = false →
        strContains (lowerStr f) "noreply" = false →
        strContains (lowerStr f) "no-reply" = false →
        strContains (lowerStr t) my = false → classify f t my = .MisRouted) ∧
      (strContains (lowerStr f) my = false →
        strContains (lowerStr f) "noreply" = false →
        strContains (lowerStr f) "no-reply" = false →
        strContains (lowerStr t) my = true → classify f t my = .Genuine) := by
    intro f t my hmy
    refine ⟨fun h1 => ?_, fun h1 h2 => ?_, fun h1 h2 h3 h4 => ?_, fun h1 h2 h3 h4 => ?_⟩ <;>
      unfold classify
    · rw [if_pos (by rw [hmy, h1]; rfl)]
    · rw [if_neg (by rw [hmy, h1]; simp), if_pos h2]
    · rw [if_neg (by rw [hmy, h1]; simp), if_neg (by rw [h2, h3]; simp),
        if_pos (by rw [hmy, h4]; rfl)]
    · rw [if_neg (by rw [hmy, h1]; simp), if_neg (by rw [h2, h3]; simp),
        if_neg (by rw [hmy, h4]; simp)]
  have hgate : ∀ (st : SysState) (msg : EmailMessage) (my : String)
      (lookup reread : Except String (List WorkflowRecord)) (send : SendOutcome),
      classify msg.fromHeader msg.toHeader my ≠ .Genuine →
      (process_incoming_message st msg my lookup reread send).workflows = st.workflows ∧
      (process_incoming_message st msg my lookup reread send).sent = st.sent := by
    intro st msg my lookup reread send hng
    rcases process_shape st msg my lookup reread send with hs | hs | ⟨w, _, _, _, _, hgen, _⟩
    · rw [hs]
      exact ⟨rfl, rfl⟩
    · rw [hs]
      exact ⟨rfl, rfl⟩
    · exact absurd hgen hng
  refine ⟨hrules, hgate, ?_⟩
  intro st msg my lookup reread send hmy hfrom
  apply hgate
  rw [((hrules msg.fromHeader msg.toHeader my hmy).1 hfrom)]
  intro h
  cases h

theorem c5_classification_gate_witness :
    classify "Me@Example.com" "me@example.com" "me@example.com" =
      Classification.SelfEcho ∧
    (process_incoming_message ⟨[], [⟨"t1", 0, "sent_initial"⟩], []⟩
        ⟨"m1", "t1", "Me@Example.com", "me@example.com"⟩ "me@example.com"
        (Except.ok [⟨"t1", 0, "sent_initial"⟩])
        (Except.ok [⟨"t1", 0, "sent_initial"⟩]) SendOutcome.sent).workflows =
      [⟨"t1", 0, "sent_initial"⟩] :=
  ⟨(c5_classification_gate.1 "Me@Example.com" "me@example.com" "me@example.com"
      (by decide)).1 (by decide),
   (c5_classification_gate.2.2 ⟨[], [⟨"t1", 0, "sent_initial"⟩], []⟩
      ⟨"m1", "t1", "Me@Example.com", "me@example.com"⟩ "me@example.com"
      (Except.ok [⟨"t1", 0, "sent_initial"⟩])
      (Except.ok [⟨"t1", 0, "sent_initial"⟩]) SendOutcome.sent
      (by decide) (by decide)).1⟩

/-- Claim C3: re-delivered duplicates cause no additional transition and no
additional outgoing message: an inbound message whose identifier is
already in the processed set is a complete no-op, and a message whose
`(thread, step)` marker for the loaded step is already in the processed
set leaves the workflow store and the sent log unchanged. -/
theorem c3_duplicate_idempotence (st : SysState) (msg : EmailMessage)
    (my : String) (lookup reread : Except String (List WorkflowRecord))
    (send : SendOutcome) :
    (st.processed.contains msg.id = true →
      process_incoming_message st msg my lookup reread send = st) ∧
    ((∀ w, load_workflow_state lookup = some w →
        st.processed.contains (stepKey msg.threadId w.step) = true) →
      (process_incoming_message st msg my lookup reread send).workflows = st.workflows ∧
      (process_incoming_message st msg my lookup reread send).sent = st.sent) := by
  constructor
  · intro h
    unfold process_incoming_message
    rw [if_pos h]
  · intro h
    rcases process_shape st msg my lookup reread send with hs | hs | ⟨w, hl, _, hk, _, _, _⟩
    · rw [hs]
      exact ⟨rfl, rfl⟩
    · rw [hs]
      exact ⟨rfl, rfl⟩
    · rw [h w hl] at hk
      cases hk

theorem c3_duplicate_idempotence_witness :
    process_incoming_message ⟨["m1"], [⟨"t1", 1, "sent_followup_1"⟩], []⟩
        ⟨"m1", "t1", "alice@example.com", "me@example.com"⟩ "me@example.com"
        (Except.ok [⟨"t1", 1, "sent_followup_1"⟩])
        (Except.ok [⟨"t1", 1, "sent_followup_1"⟩]) SendOutcome.sent
      = ⟨["m1"], [⟨"t1", 1, "sent_followup_1"⟩], []⟩ ∧
    (process_incoming_message ⟨["t1_step_1"], [⟨"t1", 1, "sent_followup_1"⟩], []⟩
        ⟨"m2", "t1", "alice@example.com", "me@example.com"⟩ "me@example.com"
        (Except.ok [⟨"t1", 1, "sent_followup_1"⟩])
        (Except.ok [⟨"t1", 1, "sent_followup_1"⟩]) SendOutcome.sent).workflows
      = [⟨"t1", 1, "sent_followup_1"⟩] :=
  ⟨(c3_duplicate_idempotence ⟨["m1"], [⟨"t1", 1, "sent_followup_1"⟩], []⟩
      ⟨"m1", "t1", "alice@example.com", "me@example.com"⟩ "me@example.com"
      (Except.ok [⟨"t1", 1, "sent_followup_1"⟩])
      (Except.ok [⟨"t1", 1, "sent_followup_1"⟩]) SendOutcome.sent).1 (by decide),
   ((c3_duplicate_idempotence ⟨["t1_step_1"], [⟨"t1", 1, "sent_followup_1"⟩], []⟩
      ⟨"m2", "t1", "alice@example.com", "me@example.com"⟩ "me@example.com"
      (Except.ok [⟨"t1", 1, "sent_followup_1"⟩])
      (Except.ok [⟨"t1", 1, "sent_followup_1"⟩]) SendOutcome.sent).2
      (fun w hw => by
        injection hw with h
        rw [← h]
        decide)).1⟩

/-- Claim C9: a storage error during the workflow lookup is indistinguishable
from an untracked conversation: `load_workflow_state` returns `none` both
on an error and on an empty result, processing an inbound message behaves
identically under an errored lookup and an empty lookup, and in both
cases a genuine unseen message is marked processed and dropped with no
other state change. -/
theorem c9_lookup_error_untracked :
    (∀ e : String, load_workflow_state (Except.error e) = none) ∧
    (load_workflow_state (Except.ok []) = none) ∧
    (∀ (st : SysState) (msg : EmailMessage) (my : String)
        (reread : Except String (List WorkflowRecord)) (send : SendOutcome)
        (e : String),
      process_incoming_message st msg my (Except.error e) reread send =
        process_incoming_message st msg my (Except.ok []) reread send) ∧
    (∀ (st : SysState) (msg : EmailMessage) (my : String)
        (reread : Except String (List WorkflowRecord)) (send : SendOutcome)
        (e : String),
      st.processed.contains msg.id = false →
      classify msg.fromHeader msg.toHeader my = Classification.Genuine →
      process_incoming_message st msg my (Except.error e) reread send =
        { st with processed := msg.id :: st.processed }) := by
  refine ⟨fun e => rfl, rfl, fun st msg my reread send e => rfl, ?_⟩
  intro st msg my reread send e hid hgen
  unfold process_incoming_message
  rw [if_neg (by rw [hid]; intro h; cases h), hgen]
  rfl

theorem c9_lookup_error_untracked_witness :
    process_incoming_message ⟨[], [⟨"t1", 1, "sent_followup_1"⟩], []⟩
        ⟨"m5", "t1", "alice@example.com", "me@example.com"⟩ "me@example.com"
        (Except.error "storage error")
        (Except.ok [⟨"t1", 1, "sent_followup_1"⟩]) SendOutcome.sent
      = ⟨["m5"], [⟨"t1", 1, "sent_followup_1"⟩], []⟩ :=
  c9_lookup_error_untracked.2.2.2 ⟨[], [⟨"t1", 1, "sent_followup_1"⟩], []⟩
    ⟨"m5", "t1", "alice@example.com", "me@example.com"⟩ "me@example.com"
    (Except.ok [⟨"t1", 1, "sent_followup_1"⟩]) SendOutcome.sent "storage error"
    (by decide) (by decide)

/-- Claim C4: persisted step values form a non-decreasing sequence starting at
0: a freshly initiated conversation is stored at step 0; every system
step either leaves a thread's persisted step unchanged or increases it by
exactly 1; and a thread at step ≥ 4 or with status "completed" is
terminal — its record never changes again and no further reply is ever
sent in that thread. -/
theorem c4_step_monotone_invariants :
    (∀ (ws : List WorkflowRecord) (tid : String),
      getWorkflow (send_initial_email ws tid) tid = some ⟨tid, 0, "sent_initial"⟩) ∧
    (∀ (my : String) (st : SysState) (ev : Event) (tid : String),
      stepOf (step_system my st ev).workflows tid = stepOf st.workflows tid ∨
      ∃ s, stepOf st.workflows tid = some s ∧
        stepOf (step_system my st ev).workflows tid = some (s + 1)) ∧
    (∀ (my : String) (st : SysState) (ev : Event) (tid : String)
        (w : WorkflowRecord),
      getWorkflow st.workflows tid = some w →
      4 ≤ w.step ∨ w.status = "completed" →
      getWorkflow (step_system my st ev).workflows tid = some w ∧
      ∀ r ∈ (step_system my st ev).sent, r ∈ st.sent ∨ r.threadId ≠ tid) := by
  refine ⟨fun ws tid => getWorkflow_save_self ws tid 0 "sent_initial",
    step_system_step_mono, ?_⟩
  intro my st ev tid w hw hterm
  by_cases ht : ev.msg.threadId = tid
  · obtain ⟨hwf, hsent⟩ := step_system_frozen_of_terminal my st ev w (ht ▸ hw) hterm
    refine ⟨by rw [hwf]; exact hw, ?_⟩
    intro r hr
    rw [hsent] at hr
    exact Or.inl hr
  · refine ⟨by rw [step_system_workflows_other my st ev tid ht]; exact hw, ?_⟩
    intro r hr
    rcases step_system_sent_origin my st ev r hr with h' | h'
    · exact Or.inl h'
    · exact Or.inr (by rw [h']; exact ht)

theorem c4_step_monotone_invariants_witness :
    getWorkflow (step_system "me@example.com"
        ⟨[], [⟨"t1", 4, "completed"⟩], []⟩ (genuineReply "m7")).workflows "t1"
      = some ⟨"t1", 4, "completed"⟩ :=
  (c4_step_monotone_invariants.2.2 "me@example.com"
    ⟨[], [⟨"t1", 4, "completed"⟩], []⟩ (genuineReply "m7") "t1"
    ⟨"t1", 4, "completed"⟩ rfl (Or.inl (by decide))).1

/-- Claim C10: the message identifier and the `(thread, step)` marker enter the
processed set before the send is attempted, so when the send raises at a
step s ∈ {0, 1, 2} the store still shows step s and the sent log is
unchanged, both markers are recorded, and no sequence of later deliveries
can ever trigger the step-s transition again in this process: the record
stays at `w` and no reply for this thread is ever sent. -/
theorem c10_failed_send_stalls (my : String) (st : SysState)
    (msg : EmailMessage) (w : WorkflowRecord)
    (hw : getWorkflow st.workflows msg.threadId = some w)
    (hs : w.step < 3) (hstatus : w.status ≠ "completed")
    (hgen : classify msg.fromHeader msg.toHeader my = Classification.Genuine)
    (hid : st.processed.contains msg.id = false)
    (hkey : st.processed.contains (stepKey msg.threadId w.step) = false) :
    (step_system my st ⟨msg, true, true, SendOutcome.raised⟩).workflows = st.workflows ∧
    (step_system my st ⟨msg, true, true, SendOutcome.raised⟩).sent = st.sent ∧
    (step_system my st ⟨msg, true, true, SendOutcome.raised⟩).processed.contains
      msg.id = true ∧
    (step_system my st ⟨msg, true, true, SendOutcome.raised⟩).processed.contains
      (stepKey msg.threadId w.step) = true ∧
    ∀ evs : List Event,
      getWorkflow (run_system my
          (step_system my st ⟨msg, true, true, SendOutcome.raised⟩) evs).workflows
        msg.threadId = some w ∧
      ∀ r ∈ (run_system my
          (step_system my st ⟨msg, true, true, SendOutcome.raised⟩) evs).sent,
        r ∈ st.sent ∨ r.threadId ≠ msg.threadId := by
  have hterm : ¬(4 ≤ w.step ∨ w.status = "completed") := by
    intro h
    rcases h with h | h
    · omega
    · exact hstatus h
  have hwm : workflow_manager st.workflows msg.threadId w.step
      (eventDb true st.workflows msg.threadId) SendOutcome.raised
      = (st.workflows, []) := by
    unfold workflow_manager
    rw [load_eventDb_true, hw]
    dsimp only
    rw [if_neg (by omega : ¬ w.step ≠ w.step)]
    have h3 : w.step = 0 ∨ w.step = 1 ∨ w.step = 2 := by omega
    rcases h3 with h | h | h <;> rw [h] <;> rfl
  have hstep : step_system my st ⟨msg, true, true, SendOutcome.raised⟩ =
      { processed := stepKey msg.threadId w.step :: msg.id :: st.processed,
        workflows := st.workflows, sent := st.sent } := by
    unfold step_system process_incoming_message
    dsimp only
    rw [if_neg (by rw [hid]; intro h; cases h), hgen]
    dsimp only
    rw [load_eventDb_true, hw]
    dsimp only
    rw [if_neg hterm, if_neg (by rw [hkey]; intro h; cases h), hwm]
    simp
  have hstalled : StalledAt (step_system my st ⟨msg, true, true, SendOutcome.raised⟩)
      msg.threadId w := by
    rw [hstep]
    constructor
    · exact hw
    · rw [List.contains_cons, beq_self_eq_true, Bool.true_or]
  refine ⟨by rw [hstep], by rw [hstep], ?_, ?_, ?_⟩
  · rw [hstep]
    exact contains_cons_of_contains _ _ _
      (by rw [List.contains_cons, beq_self_eq_true, Bool.true_or])
  · rw [hstep]
    rw [List.contains_cons, beq_self_eq_true, Bool.true_or]
  · intro evs
    obtain ⟨⟨h1, _⟩, h2⟩ := stalled_run my evs _ msg.threadId w hstalled
    refine ⟨h1, fun r hr => ?_⟩
    rcases h2 r hr with h' | h'
    · rw [hstep] at h'
      exact Or.inl h'
    · exact Or.inr h'

theorem c10_failed_send_stalls_witness :
    getWorkflow (run_system "me@example.com"
        (step_system "me@example.com" ⟨[], [⟨"t1", 1, "sent_followup_1"⟩], []⟩
          ⟨⟨"m8", "t1", "alice@example.com", "me@example.com"⟩, true, true,
            SendOutcome.raised⟩)
        [genuineReply "m9"]).workflows "t1" = some ⟨"t1", 1, "sent_followup_1"⟩ :=
  ((c10_failed_send_stalls "me@example.com" ⟨[], [⟨"t1", 1, "sent_followup_1"⟩], []⟩
    ⟨"m8", "t1", "alice@example.com", "me@example.com"⟩ ⟨"t1", 1, "sent_followup_1"⟩
    rfl (by decide) (by decide) (by decide) (by decide)
    (by decide)).2.2.2.2 [genuineReply "m9"]).1

/-- Claim C6 counterexample: when the incremental history request fails with a
transport error, `pubsub_listener` returns at once and processes nothing,
even though a recent message sits in the mailbox that the claimed
fallback (recency-filtered listing) would have processed. -/
theorem c6_no_fallback_on_error_counterexample :
    pubsub_listener_targets (Except.error "transport error") [⟨"m1", 0⟩] 0 = [] ∧
    ((([⟨"m1", 0⟩] : List RecentMessage).take 5).filter
        (fun m => (0 : Int) - m.internalDate < 5 * 60 * 1000)).map
      RecentMessage.id = ["m1"] := by
  exact ⟨rfl, by decide⟩

/-- Claim C6 (amended): the fallback to the recent-messages listing happens
only when the history request succeeds but its response has no history
entries; a message id is then processed exactly when it is among the
first five listed messages and its arrival timestamp is within the last
five minutes.  When the history request fails with a transport error,
nothing is processed and there is no fallback. -/
theorem c6_fallback_only_on_empty_history :
    (∀ (e : String) (recent : List RecentMessage) (now : Int),
      pubsub_listener_targets (Except.error e) recent now = []) ∧
    (∀ (recent : List RecentMessage) (now : Int) (i : String),
      i ∈ pubsub_listener_targets (Except.ok none) recent now ↔
        ∃ m ∈ recent.take 5, m.id = i ∧ now - m.internalDate < 5 * 60 * 1000) := by
  refine ⟨fun e recent now => rfl, fun recent now i => ?_⟩
  unfold pubsub_listener_targets
  constructor
  · intro h
    rcases List.mem_map.mp h with ⟨m, hm, hid⟩
    rcases List.mem_filter.mp hm with ⟨hmem, hcond⟩
    exact ⟨m, hmem, hid, by simpa using hcond⟩
  · rintro ⟨m, hmem, hid, hcond⟩
    exact List.mem_map.mpr ⟨m, List.mem_filter.mpr ⟨hmem, by simpa using hcond⟩, hid⟩

/-- Claim C8 counterexample: the checkpoint is not persisted — after saving the
marker 12345 the subsequent `get_last_history_id` does not return it (it
returns `none`). -/
theorem c8_checkpoint_not_persisted_counterexample :
    get_last_history_id (save_last_history_id none 12345) ≠ some 12345 := by
  decide

/-- Claim C8 (amended): both checkpoint functions are stubs —
`save_last_history_id` leaves the stored checkpoint exactly as it was (it
only logs), `get_last_history_id` always returns `none` regardless of the
store, and consequently every reconciliation pass computes its start
marker as `max(1, historyId - 100)` from the incoming notification rather
than from a persisted checkpoint. -/
theorem c8_checkpoint_stub_semantics :
    (∀ (store : Option Int) (hid : Int),
      save_last_history_id store hid = store) ∧
    (∀ store : Option Int, get_last_history_id store = none) ∧
    (∀ (store : Option Int) (hid : Int),
      start_history_id (get_last_history_id store) hid = max 1 (hid - 100)) :=
  ⟨fun _ _ => rfl, fun _ => rfl, fun _ _ => rfl⟩

theorem c6_fallback_only_on_empty_history_witness :
    "m1" ∈ pubsub_listener_targets (Except.ok none) [⟨"m1", 0⟩] 0 :=
  (c6_fallback_only_on_empty_history.2 [⟨"m1", 0⟩] 0 "m1").mpr
    ⟨⟨"m1", 0⟩, by decide, rfl, by decide⟩

theorem c8_checkpoint_stub_semantics_witness :
    start_history_id (get_last_history_id (some 7)) 500 = max 1 (500 - 100) :=
  c8_checkpoint_stub_semantics.2.2 (some 7) 500
